import Mathlib

/-!
# PooseBoard API (`src/app.go`)

A shallow embedding of the leaderboard service: the three handlers `Authorize`,
`GetScores` and `PostScores`, the helper `CheckAPIKeyValid`, `SendErrorAsJSON`,
`NotFound`, and the wiring of `main`.

What lives outside `app.go` is modelled as follows.

* The database is a value `DB` holding the rows of the two tables. Every call that
  the code guards with `if err != nil` can fail: the outcome of each such call in a
  request is fixed by an `Env` value, so that theorems hold for every behaviour of
  the connection.
* `ORDER BY score DESC` is an `OrderBy` engine: any function that returns a
  permutation of the table sorted by score, ties in any order.
* `strconv.ParseInt` / `strconv.ParseUint` are embedded from the Go standard library
  (base 10, 64-bit `int`).
* The router runs the handlers of a route in order and stops as soon as one of them
  has written a response.
* Reading the result set can fail at any row: `rows.Next()` then ends the loop of
  `GetScores` early.
-/

namespace PooseBoard

/-! ## Constants and data model -/

def PARAM_API_KEY : String := "apikey"

def PARAM_SCORE_COUNT : String := "count"

def STD_SCORE_COUNT : Int := 10

/-- Go struct `Score`: `Name string`, `Score uint64` (JSON fields `name`, `score`). -/
structure Score where
  name : String
  score : Nat
deriving DecidableEq, Repr

/-- One row of table `scores (name, score)`. The SQL integer column is signed, so a
row provisioned from outside may hold a negative score; the columns are taken to be
non-null. -/
structure Row where
  name : String
  score : Int
deriving DecidableEq, Repr

/-- The two tables behind the handle `*sql.DB`; `scores` is kept in insertion order. -/
structure DB where
  scores : List Row
  api_keys : List String
deriving DecidableEq, Repr

/-- JSON values, as far as the service produces them. -/
inductive JSON where
  | str (s : String)
  | num (n : Nat)
  | arr (items : List JSON)
  | obj (fields : List (String × JSON))

/-- Encoding of a `Score` by `encoding/json`: the fields in declaration order. -/
def Score.toJSON (s : Score) : JSON :=
  JSON.obj [("name", JSON.str s.name), ("score", JSON.num s.score)]

/-- Encoding of `map[string]interface{}{"error": msg}`. -/
def errorJSON (msg : String) : JSON :=
  JSON.obj [("error", JSON.str msg)]

/-- What a handler sends to the client: `r.JSON(status, v)`, or a returned string that
the router writes as the body. -/
inductive Write where
  | json (status : Nat) (v : JSON)
  | text (s : String)

/-! ## The environment of one request -/

/-- Engine for `ORDER BY score DESC`: the result is a permutation of the table in
non-increasing order of score. Rows with equal scores may come in any order. -/
structure OrderBy where
  run : List Row → List Row
  perm : ∀ rows, List.Perm (run rows) rows
  sorted : ∀ rows, List.Pairwise (fun a b : Row => b.score ≤ a.score) (run rows)

/-- Outcome of the fallible database calls made while one request is served. -/
structure Env where
  /-- `db.Prepare(DB_GET_APIKEY_STMT)` returns an error. -/
  keyPrepareErr : Bool
  /-- `row.Scan(&foundKey)` fails for a reason other than an empty result. -/
  keyScanErr : Bool
  /-- `db.Prepare` of the handler statement returns an error (and a nil statement). -/
  prepareErr : Bool
  /-- `statement.Query` / `statement.Exec` returns an error, or `Exec` a nil result. -/
  execErr : Bool
  /-- Reading the result set fails: `some k` when `rows.Next()` returns false on an
  error after `k` rows were delivered, `none` when every row of the result is read. -/
  rowsNextErr : Option Nat
  /-- How the engine orders the rows for this request. -/
  order : OrderBy

/-- An inbound request, after routing and body decoding. -/
structure Request where
  /-- `req.URL.Query()`, in order of occurrence. -/
  query : List (String × String)
  /-- `martini.Params`. -/
  params : List (String × String)
  /-- Result of `decoder.Decode(&score)` on the body: `none` when it returns an error. -/
  body : Option Score

/-- `url.Values.Get` and map indexing on `martini.Params`: the first value stored
under the key, the empty string when there is none. -/
def Get (values : List (String × String)) (key : String) : String :=
  (values.lookup key).getD ""

/-- State threaded through the handlers of one request. -/
structure Ctx where
  db : DB
  /-- Responses written so far. -/
  writes : List Write
  /-- A handler panicked (deferred `Close` on a nil statement). -/
  panicked : Bool

/-- Method `r.JSON(status, v)` of the renderer. -/
def Ctx.JSON (ctx : Ctx) (status : Nat) (v : JSON) : Ctx :=
  { ctx with writes := ctx.writes ++ [Write.json status v] }

/-- `SendErrorAsJSON` (app.go:169). -/
def SendErrorAsJSON (status : Nat) (msg : String) (r : Ctx) : Ctx :=
  r.JSON status (errorJSON msg)

/-! ## strconv.ParseInt -/

inductive NumError where
  | ErrSyntax
  | ErrRange
deriving DecidableEq, Repr

/-- Size of `int` in bits, on a 64-bit platform. -/
def IntSize : Nat := 64

/-- Value of a byte as a digit, the `switch` of `ParseUint`. -/
def digitVal (d : Char) : Option Nat :=
  if '0' ≤ d ∧ d ≤ '9' then some (d.toNat - '0'.toNat)
  else if 'a' ≤ d ∧ d ≤ 'z' then some (d.toNat - 'a'.toNat + 10)
  else if 'A' ≤ d ∧ d ≤ 'Z' then some (d.toNat - 'A'.toNat + 10)
  else none

/-- The digit loop of `strconv.ParseUint`; `n` is a `uint64`. On overflow the result is
the largest `uint64` together with `ErrRange`. -/
def ParseUint.loop (base cutoff maxVal : Nat) : List Char → Nat → Nat × Option NumError
  | [], n => (n, none)
  | d :: rest, n =>
    match digitVal d with
    | none => (0, some NumError.ErrSyntax)
    | some v =>
      if v ≥ base then (0, some NumError.ErrSyntax)
      else if n ≥ cutoff then (2 ^ 64 - 1, some NumError.ErrRange)
      else
        let n' := (n * base) % 2 ^ 64
        let n1 := (n' + v) % 2 ^ 64
        if n1 < n' ∨ n1 > maxVal then (2 ^ 64 - 1, some NumError.ErrRange)
        else ParseUint.loop base cutoff maxVal rest n1

/-- `strconv.ParseUint(s, base, bitSize)` for `2 ≤ base ≤ 36`, on the bytes of `s`. -/
def ParseUint (s : List Char) (base bitSize : Nat) : Nat × Option NumError :=
  let bitSize := if bitSize = 0 then IntSize else bitSize
  match s with
  | [] => (0, some NumError.ErrSyntax)
  | _ => ParseUint.loop base ((2 ^ 64 - 1) / base + 1) (2 ^ bitSize - 1) s 0

/-- Conversion `int64(un)` of a `uint64`. -/
def toInt64 (un : Nat) : Int :=
  if un % 2 ^ 64 < 2 ^ 63 then ((un % 2 ^ 64 : Nat) : Int) else ((un % 2 ^ 64 : Nat) : Int) - 2 ^ 64

/-- Negation of an `int64`, with wrap-around. -/
def negInt64 (n : Int) : Int :=
  if -n < 2 ^ 63 then -n else -n - 2 ^ 64

/-- `strconv.ParseInt(s, base, bitSize)` for `2 ≤ base ≤ 36`. -/
def ParseInt (s : String) (base bitSize : Nat) : Int × Option NumError :=
  match s.toList with
  | [] => (0, some NumError.ErrSyntax)
  | c :: rest =>
    let neg := c == '-'
    let digits := if c == '+' ∨ c == '-' then rest else c :: rest
    match ParseUint digits base bitSize with
    | (_, some NumError.ErrSyntax) => (0, some NumError.ErrSyntax)
    | (un, _) =>
      let bitSize := if bitSize = 0 then IntSize else bitSize
      let cutoff : Nat := 2 ^ (bitSize - 1)
      if !neg ∧ un ≥ cutoff then ((cutoff : Int) - 1, some NumError.ErrRange)
      else if neg ∧ un > cutoff then (-(cutoff : Int), some NumError.ErrRange)
      else
        let n := toInt64 un
        (if neg then negInt64 n else n, none)

/-! ## Database calls -/

/-- `SELECT apikey FROM api_keys WHERE apikey = ($1)` read with `QueryRow` and `Scan`:
the first matching row, `none` for `sql.ErrNoRows` or any other scan error. -/
def DB.queryAPIKey (db : DB) (env : Env) (key : String) : Option String :=
  if env.keyScanErr then none else db.api_keys.find? (fun k => k == key)

/-- `SELECT name, score FROM scores ORDER BY score DESC LIMIT ($1)`; the engine
rejects a negative limit. -/
def DB.queryScores (db : DB) (env : Env) (limit : Int) : Option (List Row) :=
  if env.execErr ∨ limit < 0 then none
  else some ((env.order.run db.scores).take limit.toNat)

/-- `INSERT INTO scores (name, score) values ($1, $2)` run with `statement.Exec`.
Whatever makes the driver or the engine reject the insert is an `execErr`. -/
def DB.insertScore (db : DB) (env : Env) (name : String) (score : Nat) : Option DB :=
  if env.execErr then none
  else some { db with scores := db.scores ++ [{ name := name, score := (score : Int) }] }

/-- `rows.Scan(&score.Name, &score.Score)` into a fresh `Score{}`: the struct after the
call and whether `Scan` returned an error. A negative integer does not convert to
`uint64`; the name, scanned first, is already stored by then. -/
def rowsScan (r : Row) : Score × Bool :=
  if 0 ≤ r.score then ({ name := r.name, score := r.score.toNat }, false)
  else ({ name := r.name, score := 0 }, true)

/-- The rows that the loop `for rows.Next()` gets to see (app.go:91). `Next` returns
false at the end of the result and also when reading fails; the code never looks at
`rows.Err()`, so a failure only cuts the result short. -/
def rowsNext (env : Env) (rows : List Row) : List Row :=
  match env.rowsNextErr with
  | none => rows
  | some k => rows.take k

/-! ## Handlers -/

/-- `CheckAPIKeyValid` (app.go:148). -/
def CheckAPIKeyValid (env : Env) (key : String) (db : DB) : Bool :=
  if env.keyPrepareErr then false
  else
    match db.queryAPIKey env key with
    | none => false
    | some foundKey => key == foundKey

/-- `Authorize` (app.go:53). -/
def Authorize (env : Env) (req : Request) (r : Ctx) : Ctx :=
  let apikey := Get req.query PARAM_API_KEY
  if apikey == "" then
    SendErrorAsJSON 403 "Not Authorized - Missing API Key" r
  else if CheckAPIKeyValid env apikey r.db then
    r
  else
    SendErrorAsJSON 403 "Not Authorized - Invalid API Key" r

/-- Lines 70-74 of `GetScores`: the limit passed to the query. -/
def GetScores.count (countStr : String) : Int :=
  match ParseInt countStr 10 0 with
  | (count, none) => count
  | (_, some _) => STD_SCORE_COUNT

/-- `GetScores` (app.go:69). The scan error of a row is only printed; the row is
appended as far as it was scanned. A failure of `rows.Next()` ends the loop and the
rows read so far are sent with status 200. -/
def GetScores (env : Env) (req : Request) (r : Ctx) : Ctx :=
  let countStr := Get req.params PARAM_SCORE_COUNT
  let count := GetScores.count countStr
  if env.prepareErr then
    { SendErrorAsJSON 500 "Failed to get scores" r with panicked := true }
  else
    match r.db.queryScores env count with
    | none => SendErrorAsJSON 500 "Failed to get scores" r
    | some rows =>
      let scoresSlice := (rowsNext env rows).map (fun row => (rowsScan row).1)
      r.JSON 200 (JSON.arr (scoresSlice.map Score.toJSON))

/-- `PostScores` (app.go:104). -/
def PostScores (env : Env) (req : Request) (r : Ctx) : Ctx :=
  match req.body with
  | none => SendErrorAsJSON 500 "Failed to upload score" r
  | some score =>
    if score.name == "" then
      SendErrorAsJSON 500 "Missing field name" r
    else if score.score == 0 then
      SendErrorAsJSON 500 "Missing field score" r
    else if env.prepareErr then
      { SendErrorAsJSON 500 "Failed to upload score" r with panicked := true }
    else
      match r.db.insertScore env score.name score.score with
      | none => SendErrorAsJSON 500 "Failed to upload score" r
      | some db' => { r with db := db' }.JSON 201 score.toJSON

/-- `NotFound` (app.go:143): the handler only returns this string; it sets no status. -/
def NotFound : String := "Game over poose!"

/-! ## Routing (`main`) -/

abbrev Handler := Env → Request → Ctx → Ctx

/-- The route the router selects for a request. -/
inductive Route where
  /-- `GET /scores/:count`. -/
  | getScores
  /-- `POST /scores`. -/
  | postScores
  /-- Anything else. -/
  | notFound
deriving DecidableEq, Repr

/-- The handler stacks registered in `main` (app.go:45-47). -/
def handlers : Route → List Handler
  | Route.getScores => [Authorize, GetScores]
  | Route.postScores => [Authorize, PostScores]
  | Route.notFound => [fun _ _ r => { r with writes := r.writes ++ [Write.text NotFound] }]

/-- The router runs the handlers of a route in order and returns as soon as the
response has been written (or a handler has panicked). -/
def runHandlers (env : Env) (req : Request) : List Handler → Ctx → Ctx
  | [], r => r
  | h :: rest, r =>
    let r' := h env req r
    if r'.panicked ∨ ¬ r'.writes.isEmpty then r' else runHandlers env req rest r'

/-- Serve one request on a database. -/
def serve (db : DB) (route : Route) (env : Env) (req : Request) : Ctx :=
  runHandlers env req (handlers route) { db := db, writes := [], panicked := false }

/-- The database after a sequence of requests. -/
def serveAll (db : DB) : List (Route × Env × Request) → DB
  | [] => db
  | (route, env, req) :: rest => serveAll (serve db route env req).db rest

/-! ## A concrete ordering engine -/

/-- A stable sort by score, highest first. -/
def stableOrder : OrderBy where
  run := List.insertionSort (fun a b : Row => b.score ≤ a.score)
  perm := List.perm_insertionSort _
  sorted := by
    intro rows
    haveI : IsTotal Row (fun a b : Row => b.score ≤ a.score) := ⟨fun a b => le_total _ _⟩
    haveI : IsTrans Row (fun a b : Row => b.score ≤ a.score) := ⟨fun a b c h1 h2 => le_trans h2 h1⟩
    exact List.sorted_insertionSort _ rows

/-- An environment in which every database call succeeds. -/
def okEnv : Env :=
  { keyPrepareErr := false, keyScanErr := false, prepareErr := false, execErr := false,
    rowsNextErr := none, order := stableOrder }

/-! ## Decimal notation, the growth relation and sample data

The notions the statements below are phrased in, and the concrete databases, requests
and environments on which they are evaluated. -/

/-- A database with one API key and no scores. -/
def db0 : DB := { scores := [], api_keys := ["secret"] }

/-- A fresh handler state on `db0`. -/
def ctx0 : Ctx := { db := db0, writes := [], panicked := false }

/-- A request carrying the key of `db0`. -/
def reqSecret : Request := { query := [("apikey", "secret")], params := [], body := none }

/-- A request without any query parameter. -/
def reqNoKey : Request := { query := [], params := [], body := none }

/-- An environment in which preparing the API key statement fails. -/
def envKeyPrepareFails : Env := { okEnv with keyPrepareErr := true }

/-- A request with a key that is not in `db0` and a well-formed score in its body. -/
def reqWrongKey : Request :=
  { query := [("apikey", "guess")], params := [("count", "5")],
    body := some { name := "alice", score := 42 } }

/-- A request with the key of `db0` that submits alice's score of 42. -/
def reqAlice : Request :=
  { query := [("apikey", "secret")], params := [],
    body := some { name := "alice", score := 42 } }

/-- One request leaves the table `scores` as it was or appends one row with a
non-empty name and a non-zero score; `api_keys` is never written. -/
def Grows (db db' : DB) : Prop :=
  db'.api_keys = db.api_keys ∧
    (db'.scores = db.scores ∨
      ∃ (name : String) (score : Nat), name ≠ "" ∧ score ≠ 0 ∧
        db'.scores = db.scores ++ [{ name := name, score := (score : Int) }])

/-- A table with one stored score. -/
def db1 : DB := { scores := [{ name := "carol", score := 7 }], api_keys := ["secret"] }

/-- Decimal notation: one step of reading a digit. -/
def stepDecimal (a : Nat) (c : Char) : Nat := 10 * a + (c.toNat - 48)

/-- Decimal notation: the number a string of digits denotes. -/
def decimalValue (s : List Char) : Nat := s.foldl stepDecimal 0

/-- Decimal notation: a non-empty string of the digits 0 to 9. -/
def isDecimal (s : List Char) : Bool := !s.isEmpty && s.all Char.isDigit

/-- Decimal notation with an optional sign: the integer the string denotes, if any. -/
def signedDecimal? : List Char → Option Int
  | [] => none
  | c :: rest =>
    if c = '+' then (if isDecimal rest then some (decimalValue rest : Int) else none)
    else if c = '-' then (if isDecimal rest then some (-(decimalValue rest : Int)) else none)
    else if isDecimal (c :: rest) then some (decimalValue (c :: rest) : Int) else none

/-- The limit as a function of the count string, in terms of decimal notation: the
integer the string denotes when it is an optionally signed decimal within the range
of a 64-bit `int`, the default count otherwise. -/
def specCount (countStr : String) : Int :=
  match signedDecimal? countStr.toList with
  | some v => if -(2 : Int) ^ 63 ≤ v ∧ v < (2 : Int) ^ 63 then v else STD_SCORE_COUNT
  | none => STD_SCORE_COUNT

/-- The `Score` that `rows.Scan` yields for a row. -/
def scanned (row : Row) : Score := (rowsScan row).1

/-- A request for `GET /scores/:count` with the key of `db0` and the given count. -/
def reqCount (count : String) : Request :=
  { query := [("apikey", "secret")], params := [("count", count)], body := none }

/-- A table with eleven scores. -/
def db11 : DB :=
  { scores := [{ name := "a", score := 3 }, { name := "b", score := 9 },
      { name := "c", score := 1 }, { name := "d", score := 11 }, { name := "e", score := 5 },
      { name := "f", score := 7 }, { name := "g", score := 2 }, { name := "h", score := 10 },
      { name := "i", score := 4 }, { name := "j", score := 8 }, { name := "k", score := 6 }],
    api_keys := ["secret"] }

/-- An environment in which running the handler statement fails. -/
def envQueryFails : Env := { okEnv with execErr := true }

/-- A request for `GET /scores/9223372036854775808`, the count 2 ^ 63. -/
def reqHuge : Request := reqCount "9223372036854775808"

/-- An environment in which reading the result set fails before the first row. -/
def envRowsFail : Env := { okEnv with rowsNextErr := some 0 }

/-- The table row that holds a `Score`. -/
def Score.toRow (s : Score) : Row := { name := s.name, score := (s.score : Int) }

/-- A table with a row of negative score, provisioned from outside the service. -/
def dbNegative : DB :=
  { scores := [{ name := "a", score := 5 }, { name := "b", score := -1 }],
    api_keys := ["secret"] }

/-! ## Basic facts about the handlers -/

theorem render_JSON_db (r : Ctx) (status : Nat) (v : JSON) : (r.JSON status v).db = r.db := rfl

theorem SendErrorAsJSON_db (status : Nat) (msg : String) (r : Ctx) :
    (SendErrorAsJSON status msg r).db = r.db := rfl

theorem SendErrorAsJSON_writes (status : Nat) (msg : String) (r : Ctx) :
    (SendErrorAsJSON status msg r).writes = r.writes ++ [Write.json status (errorJSON msg)] := rfl

theorem find?_beq_eq_none_iff (keys : List String) (key : String) :
    keys.find? (fun k => k == key) = none ↔ key ∉ keys := by
  induction keys with
  | nil => simp
  | cons k ks ih =>
    by_cases h : k = key
    · simp [List.find?, h]
    · have h' : ¬ key = k := fun e => h e.symm
      have hb : (k == key) = false := by simpa using h
      simp [List.find?, hb, h', ih]

theorem find?_beq_eq_some (keys : List String) (key found : String)
    (h : keys.find? (fun k => k == key) = some found) : found = key := by
  have := List.find?_some h
  simpa using this

/-- `CheckAPIKeyValid` answers true exactly when both database calls succeed and the
key is a row of `api_keys`. -/
theorem CheckAPIKeyValid_eq_true_iff (env : Env) (key : String) (db : DB) :
    CheckAPIKeyValid env key db = true ↔
      env.keyPrepareErr = false ∧ env.keyScanErr = false ∧ key ∈ db.api_keys := by
  unfold CheckAPIKeyValid DB.queryAPIKey
  cases hp : env.keyPrepareErr <;> cases hs : env.keyScanErr <;> simp
  cases hf : db.api_keys.find? (fun k => k == key) with
  | none =>
    have := (find?_beq_eq_none_iff db.api_keys key).1 hf
    simp [this]
  | some found =>
    have e := find?_beq_eq_some _ _ _ hf
    have hm : key ∈ db.api_keys := by
      by_contra hne
      rw [(find?_beq_eq_none_iff db.api_keys key).2 hne] at hf
      cases hf
    simp [e, hm]

theorem Authorize_of_empty (env : Env) (req : Request) (r : Ctx)
    (h : Get req.query PARAM_API_KEY = "") :
    Authorize env req r = SendErrorAsJSON 403 "Not Authorized - Missing API Key" r := by
  simp [Authorize, h]

theorem Authorize_of_valid (env : Env) (req : Request) (r : Ctx)
    (h : Get req.query PARAM_API_KEY ≠ "")
    (hv : CheckAPIKeyValid env (Get req.query PARAM_API_KEY) r.db = true) :
    Authorize env req r = r := by
  simp [Authorize, h, hv]

theorem Authorize_of_invalid (env : Env) (req : Request) (r : Ctx)
    (h : Get req.query PARAM_API_KEY ≠ "")
    (hv : CheckAPIKeyValid env (Get req.query PARAM_API_KEY) r.db = false) :
    Authorize env req r = SendErrorAsJSON 403 "Not Authorized - Invalid API Key" r := by
  simp [Authorize, h, hv]

theorem render_JSON_ne (r : Ctx) (status : Nat) (v : JSON) : r.JSON status v ≠ r := by
  intro h
  have := congrArg (fun c => c.writes.length) h
  simp [Ctx.JSON] at this

/-! ## Authorization -/

/-- C1: for every request whose `apikey` query parameter is absent or the empty string,
and for every state of the database, `Authorize` writes one response with status 403
and the JSON body whose only field `error` is "Not Authorized - Missing API Key";
nothing else changes. -/
theorem Authorize_missing_key (env : Env) (req : Request) (r : Ctx)
    (h : req.query.lookup "apikey" = none ∨ req.query.lookup "apikey" = some "") :
    Authorize env req r =
      { r with writes := r.writes ++
          [Write.json 403 (JSON.obj [("error", JSON.str "Not Authorized - Missing API Key")])] } := by
  have hk : Get req.query PARAM_API_KEY = "" := by
    unfold Get PARAM_API_KEY
    rcases h with h | h <;> simp [h]
  rw [Authorize_of_empty env req r hk]
  rfl

/-- C1 on a request without query parameters. -/
theorem Authorize_missing_key_witness :
    ((reqNoKey.query.lookup "apikey" = none ∨ reqNoKey.query.lookup "apikey" = some "") ∧
      Authorize okEnv reqNoKey ctx0 =
        { ctx0 with writes := ctx0.writes ++
          [Write.json 403
            (JSON.obj [("error", JSON.str "Not Authorized - Missing API Key")])] }) :=
  ⟨Or.inl rfl, Authorize_missing_key okEnv reqNoKey ctx0 (Or.inl rfl)⟩

/-- C2, as stated, fails: the key "secret" is a row of `api_keys`, but preparing the
lookup statement fails, `CheckAPIKeyValid` answers false and `Authorize` writes the
403 response "Not Authorized - Invalid API Key". -/
theorem Authorize_invalid_key_counterexample :
    Get reqSecret.query PARAM_API_KEY = "secret" ∧
    "secret" ∈ ctx0.db.api_keys ∧
    Authorize envKeyPrepareFails reqSecret ctx0 =
      { ctx0 with writes :=
          [Write.json 403 (JSON.obj [("error", JSON.str "Not Authorized - Invalid API Key")])] } :=
  ⟨rfl, by decide, rfl⟩

/-- C2, amended: for every non-empty key and every database, `Authorize` writes the 403
response "Not Authorized - Invalid API Key" exactly when `CheckAPIKeyValid` answers
false, that is when the key is not a row of `api_keys` or the lookup itself fails
(prepare or scan error); when the key is present and the lookup succeeds
(`CheckAPIKeyValid` answers true), `Authorize` writes nothing and changes nothing. -/
theorem Authorize_invalid_key_iff (env : Env) (req : Request) (r : Ctx)
    (h : Get req.query PARAM_API_KEY ≠ "") :
    (Authorize env req r =
        { r with writes := r.writes ++
          [Write.json 403 (JSON.obj [("error", JSON.str "Not Authorized - Invalid API Key")])] }
      ↔ (Get req.query PARAM_API_KEY ∉ r.db.api_keys ∨ env.keyPrepareErr = true ∨
          env.keyScanErr = true)) ∧
    (Authorize env req r =
        { r with writes := r.writes ++
          [Write.json 403 (JSON.obj [("error", JSON.str "Not Authorized - Invalid API Key")])] }
      ↔ CheckAPIKeyValid env (Get req.query PARAM_API_KEY) r.db = false) ∧
    (CheckAPIKeyValid env (Get req.query PARAM_API_KEY) r.db = true → Authorize env req r = r) ∧
    (Get req.query PARAM_API_KEY ∈ r.db.api_keys → env.keyPrepareErr = false →
      env.keyScanErr = false → Authorize env req r = r) := by
  have key : (Authorize env req r =
        { r with writes := r.writes ++
          [Write.json 403 (JSON.obj [("error", JSON.str "Not Authorized - Invalid API Key")])] }
      ↔ CheckAPIKeyValid env (Get req.query PARAM_API_KEY) r.db = false) := by
    cases hv : CheckAPIKeyValid env (Get req.query PARAM_API_KEY) r.db with
    | false =>
      rw [Authorize_of_invalid env req r h hv]
      exact ⟨fun _ => rfl, fun _ => rfl⟩
    | true =>
      rw [Authorize_of_valid env req r h hv]
      constructor
      · intro e
        exact absurd e.symm (render_JSON_ne r 403 _)
      · intro e
        cases e
  refine ⟨?_, key, ?_, ?_⟩
  · rw [key, ← Bool.not_eq_true, CheckAPIKeyValid_eq_true_iff]
    cases env.keyPrepareErr <;> cases env.keyScanErr <;> simp
  · intro hv
    exact Authorize_of_valid env req r h hv
  · intro hm hp hs
    exact Authorize_of_valid env req r h ((CheckAPIKeyValid_eq_true_iff _ _ _).2 ⟨hp, hs, hm⟩)

/-- C2 (amended) on a request with the stored key: rejected when the lookup statement cannot
be prepared, passed on when every call succeeds. -/
theorem Authorize_invalid_key_iff_witness :
    Get reqSecret.query PARAM_API_KEY ≠ "" ∧
    (Authorize envKeyPrepareFails reqSecret ctx0 =
        { ctx0 with writes := ctx0.writes ++
          [Write.json 403 (JSON.obj [("error", JSON.str "Not Authorized - Invalid API Key")])] }
      ↔ CheckAPIKeyValid envKeyPrepareFails (Get reqSecret.query PARAM_API_KEY) ctx0.db = false) ∧
    Authorize okEnv reqSecret ctx0 = ctx0 :=
  ⟨by decide,
    (Authorize_invalid_key_iff envKeyPrepareFails reqSecret ctx0 (by decide)).2.1,
    (Authorize_invalid_key_iff okEnv reqSecret ctx0 (by decide)).2.2.1 rfl⟩

/-! ## The handler chain -/

theorem runHandlers_Authorize_of_unauthorized (env : Env) (req : Request) (db : DB)
    (rest : List Handler)
    (h : Get req.query PARAM_API_KEY = "" ∨ Get req.query PARAM_API_KEY ∉ db.api_keys) :
    runHandlers env req (Authorize :: rest) { db := db, writes := [], panicked := false } =
      { db := db,
        writes := [Write.json 403 (errorJSON
          (if Get req.query PARAM_API_KEY = "" then "Not Authorized - Missing API Key"
            else "Not Authorized - Invalid API Key"))],
        panicked := false } := by
  by_cases hk : Get req.query PARAM_API_KEY = ""
  · simp [runHandlers, Authorize_of_empty env req _ hk, SendErrorAsJSON, Ctx.JSON, hk]
  · have hm : Get req.query PARAM_API_KEY ∉ db.api_keys := h.resolve_left hk
    have hv : CheckAPIKeyValid env (Get req.query PARAM_API_KEY) db = false := by
      rw [← Bool.not_eq_true, CheckAPIKeyValid_eq_true_iff]
      simp [hm]
    have ha := Authorize_of_invalid env req { db := db, writes := [], panicked := false } hk hv
    simp [runHandlers, ha, SendErrorAsJSON, Ctx.JSON, hk]

/-- C3: for every request whose API key is missing or not in `api_keys`, whatever its
body and whatever the database does, serving `POST /scores` leaves the database
unchanged and writes only the 403 response of `Authorize`; serving `GET /scores/:count`
does the same, and the outcome of the chain does not depend on the handler registered
after `Authorize`, which is never run. -/
theorem unauthorized_request_rejected (env : Env) (req : Request) (db : DB)
    (h : Get req.query PARAM_API_KEY = "" ∨ Get req.query PARAM_API_KEY ∉ db.api_keys) :
    (serve db Route.postScores env req).db = db ∧
    (serve db Route.postScores env req).writes =
      [Write.json 403 (JSON.obj [("error", JSON.str
        (if Get req.query PARAM_API_KEY = "" then "Not Authorized - Missing API Key"
          else "Not Authorized - Invalid API Key"))])] ∧
    serve db Route.postScores env req =
      Authorize env req { db := db, writes := [], panicked := false } ∧
    serve db Route.getScores env req =
      Authorize env req { db := db, writes := [], panicked := false } ∧
    (∀ next : Handler,
      runHandlers env req [Authorize, next] { db := db, writes := [], panicked := false } =
        Authorize env req { db := db, writes := [], panicked := false }) := by
  have hrun := fun rest => runHandlers_Authorize_of_unauthorized env req db rest h
  have hauth : Authorize env req { db := db, writes := [], panicked := false } =
      { db := db,
        writes := [Write.json 403 (errorJSON
          (if Get req.query PARAM_API_KEY = "" then "Not Authorized - Missing API Key"
            else "Not Authorized - Invalid API Key"))],
        panicked := false } := by
    have := hrun []
    simp only [runHandlers] at this
    split at this
    · exact this
    · exact this
  refine ⟨?_, ?_, ?_, ?_, ?_⟩
  · simp only [serve, handlers, hrun]
  · simp only [serve, handlers, hrun]
    rfl
  · simp only [serve, handlers, hrun, hauth]
  · simp only [serve, handlers, hrun, hauth]
  · intro next
    simp only [hrun, hauth]

/-- C3 on a `POST /scores` carrying a key that is not stored. -/
theorem unauthorized_request_rejected_witness :
    (Get reqWrongKey.query PARAM_API_KEY = "" ∨
      Get reqWrongKey.query PARAM_API_KEY ∉ db0.api_keys) ∧
    (serve db0 Route.postScores okEnv reqWrongKey).db = db0 ∧
    (serve db0 Route.postScores okEnv reqWrongKey).writes =
      [Write.json 403 (JSON.obj [("error", JSON.str "Not Authorized - Invalid API Key")])] :=
  ⟨Or.inr (by decide),
    (unauthorized_request_rejected okEnv reqWrongKey db0 (Or.inr (by decide))).1,
    (unauthorized_request_rejected okEnv reqWrongKey db0 (Or.inr (by decide))).2.1⟩

/-! ## Submitting a score -/

theorem PostScores_of_valid (env : Env) (req : Request) (r : Ctx) (score : Score)
    (hbody : req.body = some score) (hname : score.name ≠ "") (hscore : score.score ≠ 0)
    (hprep : env.prepareErr = false) (hexec : env.execErr = false) :
    PostScores env req r =
      Ctx.JSON { r with db := { r.db with scores := r.db.scores ++
        [{ name := score.name, score := (score.score : Int) }] } } 201 score.toJSON := by
  simp [PostScores, hbody, hname, hscore, hprep, hexec, DB.insertScore]

theorem PostScores_of_empty_name (env : Env) (req : Request) (r : Ctx) (score : Score)
    (hbody : req.body = some score) (hname : score.name = "") :
    PostScores env req r = SendErrorAsJSON 500 "Missing field name" r := by
  simp [PostScores, hbody, hname]

theorem PostScores_of_zero_score (env : Env) (req : Request) (r : Ctx) (score : Score)
    (hbody : req.body = some score) (hname : score.name ≠ "") (hscore : score.score = 0) :
    PostScores env req r = SendErrorAsJSON 500 "Missing field score" r := by
  simp [PostScores, hbody, hname, hscore]

/-- C6: for every decoded body with a non-empty name and a non-zero score, when the
insert succeeds (the statement is prepared and executed without error) `PostScores`
responds with status 201 and the submitted `Score` as JSON, and the table `scores`
afterwards is the previous table followed by the one new row (name, score); nothing
else changes. -/
theorem PostScores_created (env : Env) (req : Request) (r : Ctx) (score : Score)
    (hbody : req.body = some score) (hname : score.name ≠ "") (hscore : score.score ≠ 0)
    (hprep : env.prepareErr = false) (hexec : env.execErr = false) :
    PostScores env req r =
      { db := { scores := r.db.scores ++ [{ name := score.name, score := (score.score : Int) }],
                api_keys := r.db.api_keys },
        writes := r.writes ++
          [Write.json 201
            (JSON.obj [("name", JSON.str score.name), ("score", JSON.num score.score)])],
        panicked := r.panicked } := by
  rw [PostScores_of_valid env req r score hbody hname hscore hprep hexec]
  rfl

/-- C6 on alice submitting 42 to an empty table. -/
theorem PostScores_created_witness :
    PostScores okEnv reqAlice ctx0 =
      { db := { scores := [{ name := "alice", score := 42 }], api_keys := ["secret"] },
        writes := [Write.json 201 (JSON.obj [("name", JSON.str "alice"), ("score", JSON.num 42)])],
        panicked := false } :=
  PostScores_created okEnv reqAlice ctx0 { name := "alice", score := 42 } rfl (by decide)
    (by decide) rfl rfl

/-- C7: for every decoded body whose name is the empty string, whatever its score,
`PostScores` responds with status 500 and the JSON body whose only field `error` is
"Missing field name", and the database is left as it was. -/
theorem PostScores_missing_name (env : Env) (req : Request) (r : Ctx) (score : Score)
    (hbody : req.body = some score) (hname : score.name = "") :
    PostScores env req r =
      { r with writes := r.writes ++
          [Write.json 500 (JSON.obj [("error", JSON.str "Missing field name")])] } := by
  rw [PostScores_of_empty_name env req r score hbody hname]
  rfl

/-- C7 on a body with an empty name and score zero. -/
theorem PostScores_missing_name_witness :
    PostScores okEnv { reqAlice with body := some { name := "", score := 0 } } ctx0 =
      { ctx0 with writes := ctx0.writes ++
          [Write.json 500 (JSON.obj [("error", JSON.str "Missing field name")])] } :=
  PostScores_missing_name okEnv { reqAlice with body := some { name := "", score := 0 } } ctx0
    { name := "", score := 0 } rfl rfl

/-- C8: for every decoded body whose score is zero, `PostScores` inserts nothing and
answers with status 500: with the message "Missing field score" when the name is
non-empty (and "Missing field name" otherwise). So no request submits a score of 0. -/
theorem PostScores_missing_score (env : Env) (req : Request) (r : Ctx) (score : Score)
    (hbody : req.body = some score) (hscore : score.score = 0) :
    (score.name ≠ "" →
      PostScores env req r =
        { r with writes := r.writes ++
            [Write.json 500 (JSON.obj [("error", JSON.str "Missing field score")])] }) ∧
    (PostScores env req r).db = r.db ∧
    (∃ msg, (PostScores env req r).writes =
      r.writes ++ [Write.json 500 (JSON.obj [("error", JSON.str msg)])]) := by
  by_cases hname : score.name = ""
  · rw [PostScores_of_empty_name env req r score hbody hname]
    exact ⟨fun hn => absurd hname hn, rfl, _, rfl⟩
  · rw [PostScores_of_zero_score env req r score hbody hname hscore]
    exact ⟨fun _ => rfl, rfl, _, rfl⟩

/-- C8 on bob submitting a score of zero. -/
theorem PostScores_missing_score_witness :
    PostScores okEnv { reqAlice with body := some { name := "bob", score := 0 } } ctx0 =
      { ctx0 with writes := ctx0.writes ++
          [Write.json 500 (JSON.obj [("error", JSON.str "Missing field score")])] } :=
  (PostScores_missing_score okEnv { reqAlice with body := some { name := "bob", score := 0 } }
    ctx0 { name := "bob", score := 0 } rfl rfl).1 (by decide)

/-! ## The store over a sequence of requests -/

theorem Grows.refl (db : DB) : Grows db db := ⟨rfl, Or.inl rfl⟩

theorem Authorize_db (env : Env) (req : Request) (r : Ctx) : (Authorize env req r).db = r.db := by
  unfold Authorize
  simp only
  split
  · rfl
  · split <;> rfl

theorem GetScores_db (env : Env) (req : Request) (r : Ctx) : (GetScores env req r).db = r.db := by
  unfold GetScores
  simp only
  split
  · rfl
  · split <;> rfl

theorem PostScores_grows (env : Env) (req : Request) (r : Ctx) :
    Grows r.db (PostScores env req r).db := by
  unfold PostScores
  split
  · exact Grows.refl _
  · rename_i score _
    by_cases hname : score.name = ""
    · simp only [hname, beq_self_eq_true, if_true]
      exact Grows.refl _
    · by_cases hscore : score.score = 0
      · simp [hname, hscore, SendErrorAsJSON_db, Grows.refl]
      · cases hp : env.prepareErr
        · cases he : env.execErr
          · simp only [hname, hscore, DB.insertScore, he, beq_iff_eq, if_false, Bool.false_eq_true]
            exact ⟨rfl, Or.inr ⟨score.name, score.score, hname, hscore, rfl⟩⟩
          · simp [hname, hscore, DB.insertScore, he, SendErrorAsJSON_db, Grows.refl]
        · simp only [hname, hscore, beq_iff_eq, if_false, if_true]
          exact Grows.refl _

theorem runHandlers_pair_db (env : Env) (req : Request) (h1 h2 : Handler) (r : Ctx) :
    (runHandlers env req [h1, h2] r).db = (h1 env req r).db ∨
      (runHandlers env req [h1, h2] r).db = (h2 env req (h1 env req r)).db := by
  simp only [runHandlers]
  split
  · exact Or.inl rfl
  · split <;> exact Or.inr rfl

theorem serve_grows (db : DB) (route : Route) (env : Env) (req : Request) :
    Grows db (serve db route env req).db := by
  cases route with
  | getScores =>
    rcases runHandlers_pair_db env req Authorize GetScores
      { db := db, writes := [], panicked := false } with h | h
    · simp only [serve, handlers, h, Authorize_db]
      exact Grows.refl _
    · simp only [serve, handlers, h, GetScores_db, Authorize_db]
      exact Grows.refl _
  | postScores =>
    rcases runHandlers_pair_db env req Authorize PostScores
      { db := db, writes := [], panicked := false } with h | h
    · simp only [serve, handlers, h, Authorize_db]
      exact Grows.refl _
    · simp only [serve, handlers, h]
      have := PostScores_grows env req (Authorize env req { db := db, writes := [], panicked := false })
      rwa [Authorize_db] at this
  | notFound =>
    simp only [serve, handlers, runHandlers]
    split <;> exact Grows.refl _

/-- C10: if every row of `scores` has a non-empty name and a non-zero score, then after
any sequence of requests served through the routes of `main` (handled by `Authorize`,
`GetScores`, `PostScores` or `NotFound`, whatever the database calls do) every row still
has a non-empty name and a non-zero score; the rows stored before are all still there,
unchanged and in place (the old table is a prefix of the new one), and `api_keys` is
untouched. -/
theorem serveAll_store_invariant (db : DB) (reqs : List (Route × Env × Request))
    (h : ∀ row ∈ db.scores, row.name ≠ "" ∧ row.score ≠ 0) :
    (∀ row ∈ (serveAll db reqs).scores, row.name ≠ "" ∧ row.score ≠ 0) ∧
    db.scores <+: (serveAll db reqs).scores ∧
    (serveAll db reqs).api_keys = db.api_keys := by
  induction reqs generalizing db with
  | nil => exact ⟨h, List.prefix_refl _, rfl⟩
  | cons x rest ih =>
    obtain ⟨route, env, req⟩ := x
    have hg := serve_grows db route env req
    have hinv : ∀ row ∈ (serve db route env req).db.scores, row.name ≠ "" ∧ row.score ≠ 0 := by
      rcases hg.2 with e | ⟨name, score, hn, hs, e⟩
      · rw [e]; exact h
      · rw [e]
        intro row hrow
        rcases List.mem_append.1 hrow with hm | hm
        · exact h row hm
        · rw [List.mem_singleton] at hm
          subst hm
          exact ⟨hn, fun e => hs (Int.natCast_eq_zero.1 e)⟩
    have hpre : db.scores <+: (serve db route env req).db.scores := by
      rcases hg.2 with e | ⟨name, score, _, _, e⟩
      · rw [e]
      · rw [e]; exact List.prefix_append _ _
    obtain ⟨i1, i2, i3⟩ := ih (serve db route env req).db hinv
    exact ⟨i1, hpre.trans i2, i3.trans hg.1⟩

/-- C10 on a POST, a GET and an unmatched request served in a row. -/
theorem serveAll_store_invariant_witness :
    (∀ row ∈ db1.scores, row.name ≠ "" ∧ row.score ≠ 0) ∧
    (serveAll db1 [(Route.postScores, okEnv, reqAlice), (Route.getScores, okEnv, reqSecret),
        (Route.notFound, okEnv, reqNoKey)]).scores =
      [{ name := "carol", score := 7 }, { name := "alice", score := 42 }] ∧
    db1.scores <+: (serveAll db1 [(Route.postScores, okEnv, reqAlice),
        (Route.getScores, okEnv, reqSecret), (Route.notFound, okEnv, reqNoKey)]).scores :=
  ⟨by decide, by decide,
    (serveAll_store_invariant db1 [(Route.postScores, okEnv, reqAlice),
        (Route.getScores, okEnv, reqSecret), (Route.notFound, okEnv, reqNoKey)]
      (by decide)).2.1⟩

/-! ## The count parameter: `strconv.ParseInt` against decimal notation -/

theorem char_le_iff (a b : Char) : a ≤ b ↔ a.toNat ≤ b.toNat := Iff.rfl

theorem isDigit_iff (c : Char) : c.isDigit = true ↔ 48 ≤ c.toNat ∧ c.toNat ≤ 57 := by
  simp only [Char.isDigit, Char.toNat, Bool.and_eq_true, decide_eq_true_eq, ge_iff_le]
  exact Iff.rfl

theorem digitVal_of_isDigit (c : Char) (h : c.isDigit = true) :
    digitVal c = some (c.toNat - 48) ∧ c.toNat - 48 < 10 := by
  rw [isDigit_iff] at h
  have h0 : ('0' : Char).toNat = 48 := rfl
  have h9 : ('9' : Char).toNat = 57 := rfl
  unfold digitVal
  simp only [char_le_iff, h0, h9]
  rw [if_pos h]
  exact ⟨rfl, by omega⟩

theorem digitVal_of_not_isDigit (c : Char) (h : ¬ c.isDigit = true) :
    digitVal c = none ∨ ∃ v, digitVal c = some v ∧ 10 ≤ v := by
  rw [isDigit_iff] at h
  have h0 : ('0' : Char).toNat = 48 := rfl
  have h9 : ('9' : Char).toNat = 57 := rfl
  unfold digitVal
  simp only [char_le_iff, h0, h9]
  rw [if_neg h]
  split
  · exact Or.inr ⟨_, rfl, by omega⟩
  · split
    · exact Or.inr ⟨_, rfl, by omega⟩
    · exact Or.inl rfl

theorem le_foldl_stepDecimal (cs : List Char) (n : Nat) : n ≤ cs.foldl stepDecimal n := by
  induction cs generalizing n with
  | nil => exact Nat.le_refl _
  | cons c cs ih =>
    simp only [List.foldl_cons]
    refine Nat.le_trans ?_ (ih _)
    unfold stepDecimal
    omega

/-- On a string of digits the loop of `ParseUint` computes the decimal value, or
reports a range error when that value does not fit 64 bits. -/
theorem ParseUint_loop_digits (cs : List Char) (hd : ∀ c ∈ cs, c.isDigit = true) (n : Nat)
    (hn : n < 2 ^ 64) :
    ParseUint.loop 10 ((2 ^ 64 - 1) / 10 + 1) (2 ^ 64 - 1) cs n =
      if cs.foldl stepDecimal n < 2 ^ 64 then (cs.foldl stepDecimal n, none)
      else (2 ^ 64 - 1, some NumError.ErrRange) := by
  induction cs generalizing n with
  | nil =>
    simp only [ParseUint.loop, List.foldl_nil]
    rw [if_pos hn]
  | cons c cs ih =>
    obtain ⟨hv, hlt⟩ := digitVal_of_isDigit c (hd c (List.mem_cons_self _ _))
    have hd' : ∀ c ∈ cs, c.isDigit = true := fun x hx => hd x (List.mem_cons_of_mem _ hx)
    have hge := le_foldl_stepDecimal cs (stepDecimal n c)
    have hstep : stepDecimal n c = 10 * n + (c.toNat - 48) := rfl
    simp only [ParseUint.loop, hv, List.foldl_cons]
    norm_num only at hn hge ih ⊢
    rw [if_neg (by omega)]
    by_cases hc : 1844674407370955162 ≤ n
    · rw [if_pos hc, if_neg (by omega)]
    · rw [if_neg hc]
      have e1 : n * 10 % 18446744073709551616 = n * 10 := Nat.mod_eq_of_lt (by omega)
      rw [e1]
      by_cases ho : n * 10 + (c.toNat - 48) < 18446744073709551616
      · have e2 : (n * 10 + (c.toNat - 48)) % 18446744073709551616 = n * 10 + (c.toNat - 48) :=
          Nat.mod_eq_of_lt ho
        rw [e2, if_neg (by omega)]
        have := ih hd' (n * 10 + (c.toNat - 48)) ho
        rw [this]
        have e3 : stepDecimal n c = n * 10 + (c.toNat - 48) := by rw [hstep]; omega
        rw [e3]
      · have e2 : (n * 10 + (c.toNat - 48)) % 18446744073709551616 =
            n * 10 + (c.toNat - 48) - 18446744073709551616 := by
          rw [Nat.mod_eq_sub_mod (by omega)]
          exact Nat.mod_eq_of_lt (by omega)
        rw [e2, if_pos (by omega), if_neg (by omega)]

/-- On a string with a character that is not a digit the loop of `ParseUint` fails. -/
theorem ParseUint_loop_not_digits (cs : List Char) (hd : ∃ c ∈ cs, ¬ c.isDigit = true)
    (n : Nat) :
    (ParseUint.loop 10 ((2 ^ 64 - 1) / 10 + 1) (2 ^ 64 - 1) cs n).2 = some NumError.ErrSyntax ∨
      ParseUint.loop 10 ((2 ^ 64 - 1) / 10 + 1) (2 ^ 64 - 1) cs n =
        (2 ^ 64 - 1, some NumError.ErrRange) := by
  induction cs generalizing n with
  | nil =>
    obtain ⟨c, hc, _⟩ := hd
    cases hc
  | cons c cs ih =>
    by_cases hdig : c.isDigit = true
    · obtain ⟨hv, hlt⟩ := digitVal_of_isDigit c hdig
      have hd' : ∃ c ∈ cs, ¬ c.isDigit = true := by
        obtain ⟨x, hx, hnx⟩ := hd
        rcases List.mem_cons.1 hx with e | hm
        · subst e
          exact absurd hdig hnx
        · exact ⟨x, hm, hnx⟩
      simp only [ParseUint.loop, hv]
      split
      · exact Or.inl rfl
      · split
        · exact Or.inr rfl
        · split
          · exact Or.inr rfl
          · exact ih hd' _
    · rcases digitVal_of_not_isDigit c hdig with hv | ⟨v, hv, hge⟩
      · left
        simp only [ParseUint.loop, hv]
      · left
        simp only [ParseUint.loop, hv]
        rw [if_pos hge]

theorem ParseUint_of_isDecimal (s : List Char) (h : isDecimal s = true) :
    ParseUint s 10 0 =
      if decimalValue s < 2 ^ 64 then (decimalValue s, none)
      else (2 ^ 64 - 1, some NumError.ErrRange) := by
  cases s with
  | nil => simp [isDecimal] at h
  | cons c cs =>
    have hd : ∀ x ∈ c :: cs, x.isDigit = true := by
      simp only [isDecimal, List.isEmpty_cons, Bool.not_false, Bool.true_and,
        List.all_eq_true] at h
      exact h
    have := ParseUint_loop_digits (c :: cs) hd 0 (by norm_num)
    simp only [ParseUint, IntSize, if_true]
    exact this

theorem ParseUint_of_not_isDecimal (s : List Char) (h : isDecimal s = false) :
    (ParseUint s 10 0).2 = some NumError.ErrSyntax ∨
      ParseUint s 10 0 = (2 ^ 64 - 1, some NumError.ErrRange) := by
  cases s with
  | nil => exact Or.inl rfl
  | cons c cs =>
    have hd : ∃ x ∈ c :: cs, ¬ x.isDigit = true := by
      by_contra hne
      push_neg at hne
      have : isDecimal (c :: cs) = true := by
        simp only [isDecimal, List.isEmpty_cons, Bool.not_false, Bool.true_and,
          List.all_eq_true]
        exact hne
      rw [h] at this
      cases this
    have := ParseUint_loop_not_digits (c :: cs) hd 0
    simp only [ParseUint, IntSize, if_true]
    exact this

theorem toInt64_of_lt (u : Nat) (h : u < 2 ^ 63) : toInt64 u = (u : Int) := by
  unfold toInt64
  have e : u % 2 ^ 64 = u := Nat.mod_eq_of_lt (by norm_num at h ⊢; omega)
  rw [e, if_pos h]

theorem negInt64_toInt64 (u : Nat) (h : u ≤ 2 ^ 63) : negInt64 (toInt64 u) = -(u : Int) := by
  unfold toInt64
  have e : u % 2 ^ 64 = u := Nat.mod_eq_of_lt (by norm_num at h ⊢; omega)
  rw [e]
  unfold negInt64
  norm_num only at h ⊢
  split_ifs <;> omega

/-- The limit computed by `GetScores` from a non-empty count string, by sign and digits. -/
theorem GetScores_count_cons (s : String) (c : Char) (rest : List Char)
    (hs : s.toList = c :: rest) :
    GetScores.count s =
      if isDecimal (if c = '+' ∨ c = '-' then rest else c :: rest) = true then
        if c = '-' then
          (if decimalValue (if c = '+' ∨ c = '-' then rest else c :: rest) ≤ 2 ^ 63 then
            -(decimalValue (if c = '+' ∨ c = '-' then rest else c :: rest) : Int) else 10)
        else
          (if decimalValue (if c = '+' ∨ c = '-' then rest else c :: rest) < 2 ^ 63 then
            (decimalValue (if c = '+' ∨ c = '-' then rest else c :: rest) : Int) else 10)
      else 10 := by
  generalize hdig : (if c = '+' ∨ c = '-' then rest else c :: rest) = digits
  have hP : ParseInt s 10 0 =
      match ParseUint digits 10 0 with
      | (_, some NumError.ErrSyntax) => (0, some NumError.ErrSyntax)
      | (un, _) =>
        if (!(c == '-')) = true ∧ un ≥ 2 ^ 63 then (((2 ^ 63 : Nat) : Int) - 1, some NumError.ErrRange)
        else if (c == '-') = true ∧ un > 2 ^ 63 then (-((2 ^ 63 : Nat) : Int), some NumError.ErrRange)
        else (if (c == '-') = true then negInt64 (toInt64 un) else toInt64 un, none) := by
    unfold ParseInt
    rw [hs]
    simp only [beq_iff_eq, IntSize, if_true, hdig]
  unfold GetScores.count
  rw [hP]
  have hstd : STD_SCORE_COUNT = 10 := rfl
  by_cases hd : isDecimal digits = true
  · rw [if_pos hd, ParseUint_of_isDecimal digits hd]
    by_cases h64 : decimalValue digits < 2 ^ 64
    · rw [if_pos h64]
      by_cases hneg : c = '-'
      · simp only [hneg, beq_self_eq_true, Bool.not_true, Bool.false_eq_true, false_and,
          if_false, true_and, if_true]
        by_cases h63 : decimalValue digits > 2 ^ 63
        · rw [if_pos h63, if_neg (by omega)]
          exact hstd
        · rw [if_neg h63, if_pos (by omega)]
          exact negInt64_toInt64 _ (by omega)
      · have hb : (c == '-') = false := by simpa using hneg
        simp only [hb, Bool.not_false, true_and, Bool.false_eq_true, false_and, if_false, hneg]
        by_cases h63 : decimalValue digits ≥ 2 ^ 63
        · rw [if_pos h63, if_neg (by omega)]
          exact hstd
        · rw [if_neg h63, if_pos (by omega)]
          exact toInt64_of_lt _ (by omega)
    · rw [if_neg h64]
      have hbig : ¬ decimalValue digits ≤ 2 ^ 63 := by norm_num only at h64 ⊢; omega
      have hbig' : ¬ decimalValue digits < 2 ^ 63 := by norm_num only at h64 ⊢; omega
      by_cases hneg : c = '-'
      · simp only [hneg, beq_self_eq_true, Bool.not_true, Bool.false_eq_true, false_and,
          if_false, true_and, if_true]
        rw [if_pos (by norm_num), if_neg hbig]
        exact hstd
      · have hb : (c == '-') = false := by simpa using hneg
        simp only [hb, Bool.not_false, true_and, Bool.false_eq_true, false_and, if_false, hneg]
        rw [if_pos (by norm_num), if_neg hbig']
        exact hstd
  · rw [if_neg hd]
    have hd' : isDecimal digits = false := by simpa using hd
    rcases ParseUint_of_not_isDecimal digits hd' with h | h
    · rcases hres : ParseUint digits 10 0 with ⟨un, e⟩
      rw [hres] at h
      simp only at h
      subst h
      exact hstd
    · rw [h]
      by_cases hneg : c = '-'
      · simp only [hneg, beq_self_eq_true, Bool.not_true, Bool.false_eq_true, false_and,
          if_false, true_and, if_true]
        rw [if_pos (by norm_num)]
        exact hstd
      · have hb : (c == '-') = false := by simpa using hneg
        simp only [hb, Bool.not_false, true_and, Bool.false_eq_true, false_and, if_false, hneg]
        rw [if_pos (by norm_num)]
        exact hstd

/-- `GetScores` computes its limit as decimal notation prescribes: `specCount`. -/
theorem GetScores_count_eq_specCount (s : String) : GetScores.count s = specCount s := by
  unfold specCount
  cases hs : s.toList with
  | nil =>
    simp only [signedDecimal?]
    unfold GetScores.count ParseInt
    rw [hs]
  | cons c rest =>
    rw [GetScores_count_cons s c rest hs]
    have hstd : STD_SCORE_COUNT = 10 := rfl
    simp only [signedDecimal?]
    by_cases hp : c = '+'
    · have hne : ¬ c = '-' := by rw [hp]; decide
      simp only [hp, true_or, if_true]
      have hne' : ¬ ('+' : Char) = '-' := by decide
      simp only [hne', if_false]
      by_cases hd : isDecimal rest = true
      · simp only [hd, if_true]
        by_cases h63 : decimalValue rest < 2 ^ 63
        · rw [if_pos h63, if_pos (by constructor <;> norm_num only at h63 ⊢ <;> omega)]
        · rw [if_neg h63, if_neg (by intro hh; norm_num only at h63 hh; omega)]
          exact hstd.symm
      · simp only [hd, if_false]
        exact hstd.symm
    · by_cases hm : c = '-'
      · have hne' : ¬ ('-' : Char) = '+' := by decide
        simp only [hm, or_true, if_true, hne', if_false]
        by_cases hd : isDecimal rest = true
        · simp only [hd, if_true]
          by_cases h63 : decimalValue rest ≤ 2 ^ 63
          · rw [if_pos h63, if_pos (by constructor <;> norm_num only at h63 ⊢ <;> omega)]
          · rw [if_neg h63, if_neg (by intro hh; norm_num only at h63 hh; omega)]
            exact hstd.symm
        · simp only [hd, if_false]
          exact hstd.symm
      · simp only [hp, hm, or_self, if_false]
        by_cases hd : isDecimal (c :: rest) = true
        · simp only [hd, if_true]
          by_cases h63 : decimalValue (c :: rest) < 2 ^ 63
          · rw [if_pos h63, if_pos (by constructor <;> norm_num only at h63 ⊢ <;> omega)]
          · rw [if_neg h63, if_neg (by intro hh; norm_num only at h63 hh; omega)]
            exact hstd.symm
        · simp only [hd, if_false]
          exact hstd.symm

/-! ## Decimal notation of a natural number -/

theorem digitChar_isDigit : ∀ k, k < 10 →
    (Nat.digitChar k).isDigit = true ∧ (Nat.digitChar k).toNat - 48 = k := by
  decide

theorem foldl_stepDecimal_append (l : List Char) (d : Char) (a : Nat) :
    (l ++ [d]).foldl stepDecimal a = 10 * l.foldl stepDecimal a + (d.toNat - 48) := by
  rw [List.foldl_append]
  rfl

theorem toDigitsCore_decimal (fuel : Nat) : ∀ (n : Nat) (ds : List Char), n < fuel →
    ∃ l : List Char, Nat.toDigitsCore 10 fuel n ds = l ++ ds ∧ l ≠ [] ∧
      (∀ c ∈ l, c.isDigit = true) ∧ l.foldl stepDecimal 0 = n := by
  induction fuel with
  | zero => intro n ds h; omega
  | succ fuel ih =>
    intro n ds h
    obtain ⟨hd, hv⟩ := digitChar_isDigit (n % 10) (Nat.mod_lt _ (by norm_num))
    unfold Nat.toDigitsCore
    simp only
    by_cases h0 : n / 10 = 0
    · rw [if_pos h0]
      refine ⟨[Nat.digitChar (n % 10)], rfl, by simp, ?_, ?_⟩
      · intro c hc
        rw [List.mem_singleton] at hc
        rw [hc]; exact hd
      · simp only [List.foldl_cons, List.foldl_nil, stepDecimal, hv]
        omega
    · rw [if_neg h0]
      obtain ⟨l, e, _, hl, hval⟩ := ih (n / 10) (Nat.digitChar (n % 10) :: ds) (by omega)
      refine ⟨l ++ [Nat.digitChar (n % 10)], ?_, by simp, ?_, ?_⟩
      · rw [e]; simp
      · intro c hc
        rcases List.mem_append.1 hc with hm | hm
        · exact hl c hm
        · rw [List.mem_singleton] at hm
          rw [hm]; exact hd
      · rw [foldl_stepDecimal_append, hval, hv]
        omega

/-- The decimal representation of a natural number is a string of digits that denotes
that number. -/
theorem decimal_toString (n : Nat) :
    isDecimal (toString n).toList = true ∧ decimalValue (toString n).toList = n := by
  obtain ⟨l, e, hne, hl, hval⟩ := toDigitsCore_decimal (n + 1) n [] (Nat.lt_succ_self n)
  have hlist : (toString n).toList = l := by
    show (Nat.toDigits 10 n) = l
    unfold Nat.toDigits
    rw [e, List.append_nil]
  rw [hlist]
  refine ⟨?_, hval⟩
  cases l with
  | nil => exact absurd rfl hne
  | cons c cs =>
    simp only [isDecimal, List.isEmpty_cons, Bool.not_false, Bool.true_and, List.all_eq_true]
    exact hl

/-- A string of digits that denotes `n < 2 ^ 63` is parsed to the limit `n`. -/
theorem GetScores_count_decimal (s : String) (n : Nat) (hn : n < 2 ^ 63)
    (hs : isDecimal s.toList = true) (hv : decimalValue s.toList = n) :
    GetScores.count s = (n : Int) := by
  rw [GetScores_count_eq_specCount]
  unfold specCount
  cases hl : s.toList with
  | nil => rw [hl] at hs; simp [isDecimal] at hs
  | cons c rest =>
    rw [hl] at hs hv
    have hc : c.isDigit = true := by
      simp only [isDecimal, List.isEmpty_cons, Bool.not_false, Bool.true_and,
        List.all_eq_true] at hs
      exact hs c (List.mem_cons_self _ _)
    have hp : ¬ c = '+' := by
      intro e; rw [e] at hc; revert hc; decide
    have hm : ¬ c = '-' := by
      intro e; rw [e] at hc; revert hc; decide
    simp only [signedDecimal?, hp, hm, if_false, hs, if_true, hv]
    rw [if_pos (by constructor <;> norm_num only at hn ⊢ <;> omega)]

/-! ## Listing the top scores -/

theorem scanned_of_nonneg (row : Row) (h : 0 ≤ row.score) :
    scanned row = { name := row.name, score := row.score.toNat } := by
  unfold scanned rowsScan
  rw [if_pos h]

theorem scanned_score (row : Row) : ((scanned row).score : Int) = max row.score 0 := by
  unfold scanned rowsScan
  by_cases h : 0 ≤ row.score
  · rw [if_pos h]
    simp only [Int.toNat_of_nonneg h]
    omega
  · rw [if_neg h]
    simp only [Nat.cast_zero]
    omega

/-- Without a prepare, query or read error and with a non-negative limit, `GetScores`
responds 200 with the first `limit` rows of the ordered table, each as scanned. -/
theorem GetScores_ok (env : Env) (req : Request) (r : Ctx)
    (hp : env.prepareErr = false) (he : env.execErr = false) (hr : env.rowsNextErr = none)
    (hc : 0 ≤ GetScores.count (Get req.params PARAM_SCORE_COUNT)) :
    GetScores env req r =
      r.JSON 200 (JSON.arr ((((env.order.run r.db.scores).take
        (GetScores.count (Get req.params PARAM_SCORE_COUNT)).toNat).map scanned).map
          Score.toJSON)) := by
  unfold GetScores DB.queryScores rowsNext
  simp only [hp, he, hr, Bool.false_eq_true, if_false, false_or]
  rw [if_neg (by omega)]
  rfl

theorem length_take_order (env : Env) (rows : List Row) (k : Nat) :
    ((env.order.run rows).take k).length = min k rows.length := by
  rw [List.length_take, (env.order.perm rows).length_eq]

theorem scanned_eq (row : Row) :
    scanned row =
      { name := row.name, score := if (0 : Int) ≤ row.score then row.score.toNat else 0 } := by
  unfold scanned rowsScan
  by_cases h : 0 ≤ row.score
  · rw [if_pos h, if_pos h]
  · rw [if_neg h, if_neg h]

theorem toRow_scanned (row : Row) (h : 0 ≤ row.score) : (scanned row).toRow = row := by
  rw [scanned_of_nonneg row h]
  unfold Score.toRow
  simp only [Int.toNat_of_nonneg h]

/-- C4: the code departs from the claim at the count "-5". The string is not a
non-negative decimal integer, so the claim asks for the default limit 10 and an array
of min(10, rows) entries, which is what the sibling input "abc" gets. But `ParseInt`
accepts "-5" without error, the fallback is skipped, the limit is -5, the engine
rejects the query and the response is the 500 error "Failed to get scores". -/
theorem GetScores_negative_count :
    isDecimal "-5".toList = false ∧
    GetScores.count "-5" = -5 ∧
    GetScores.count "-5" ≠ STD_SCORE_COUNT ∧
    (GetScores okEnv (reqCount "-5") { db := db11, writes := [], panicked := false }).writes =
      [Write.json 500 (JSON.obj [("error", JSON.str "Failed to get scores")])] ∧
    GetScores.count "abc" = STD_SCORE_COUNT ∧
    (GetScores okEnv (reqCount "abc") { db := db11, writes := [], panicked := false }).writes =
      [Write.json 200 (JSON.arr (List.map Score.toJSON
        [{ name := "d", score := 11 }, { name := "h", score := 10 }, { name := "b", score := 9 },
          { name := "j", score := 8 }, { name := "f", score := 7 }, { name := "k", score := 6 },
          { name := "e", score := 5 }, { name := "i", score := 4 }, { name := "a", score := 3 },
          { name := "g", score := 2 }]))] :=
  ⟨by decide, by decide, by decide, rfl, by decide, rfl⟩

/-- C5, as stated, fails for n = 2 ^ 63 on a table of eleven rows: the count is out of
the range of `int`, `GetScores` falls back to the limit 10 and responds with ten
entries, not with min(n, 11) = 11. -/
theorem GetScores_top_counterexample :
    Get reqHuge.params PARAM_SCORE_COUNT = toString (2 ^ 63) ∧
    db11.scores.length = 11 ∧
    (GetScores okEnv reqHuge { db := db11, writes := [], panicked := false }).writes =
      [Write.json 200 (JSON.arr (List.map Score.toJSON
        [{ name := "d", score := 11 }, { name := "h", score := 10 }, { name := "b", score := 9 },
          { name := "j", score := 8 }, { name := "f", score := 7 }, { name := "k", score := 6 },
          { name := "e", score := 5 }, { name := "i", score := 4 }, { name := "a", score := 3 },
          { name := "g", score := 2 }]))] ∧
    (10 : Nat) ≠ min (2 ^ 63) db11.scores.length :=
  ⟨by decide, rfl, rfl, by decide⟩

/-- C5, amended: for every natural number n below 2 ^ 63 given as a string of decimal
digits, and every table, when no store error occurs (the statement is prepared and
queried and the result is read to its end without error) `GetScores` responds with
status 200 and the JSON array of the first n rows of the table as the engine sorts it
by score descending, each row as `Scan` leaves it (a negative score reads as 0). The
array has exactly min(n, number of stored rows) entries, exactly n when at least n rows
are stored, and is in non-increasing order of score; no row left out has a higher score
than a row returned; and when none of the rows returned fails to scan, the entries are
those rows themselves. -/
theorem GetScores_top_scores (env : Env) (req : Request) (r : Ctx) (n : Nat)
    (hn : n < 2 ^ 63)
    (hs : isDecimal (Get req.params PARAM_SCORE_COUNT).toList = true)
    (hv : decimalValue (Get req.params PARAM_SCORE_COUNT).toList = n)
    (hp : env.prepareErr = false) (he : env.execErr = false)
    (hr : env.rowsNextErr = none) :
    ∃ scoresSlice : List Score,
      scoresSlice = ((env.order.run r.db.scores).take n).map (fun row =>
        ({ name := row.name, score := if (0 : Int) ≤ row.score then row.score.toNat else 0 } : Score)) ∧
      GetScores env req r =
        { r with writes := r.writes ++
            [Write.json 200 (JSON.arr (scoresSlice.map Score.toJSON))] } ∧
      List.Perm (env.order.run r.db.scores) r.db.scores ∧
      List.Pairwise (fun a b : Row => b.score ≤ a.score) (env.order.run r.db.scores) ∧
      scoresSlice.length = min n r.db.scores.length ∧
      (n ≤ r.db.scores.length → scoresSlice.length = n) ∧
      List.Pairwise (fun a b : Score => b.score ≤ a.score) scoresSlice ∧
      (∀ x ∈ (env.order.run r.db.scores).take n, ∀ y ∈ (env.order.run r.db.scores).drop n,
        y.score ≤ x.score) ∧
      ((∀ row ∈ (env.order.run r.db.scores).take n, 0 ≤ row.score) →
        scoresSlice.map Score.toRow = (env.order.run r.db.scores).take n) := by
  have hcount := GetScores_count_decimal _ n hn hs hv
  have hok := GetScores_ok env req r hp he hr (by rw [hcount]; exact Int.natCast_nonneg n)
  rw [hcount, Int.toNat_natCast] at hok
  have hfun : (fun row : Row =>
      ({ name := row.name, score := if (0 : Int) ≤ row.score then row.score.toNat else 0 } : Score)) =
      scanned := by
    funext row
    exact (scanned_eq row).symm
  have hlen : (((env.order.run r.db.scores).take n).map scanned).length =
      min n r.db.scores.length := by
    rw [List.length_map, length_take_order]
  refine ⟨((env.order.run r.db.scores).take n).map scanned,
    congrArg (fun f => List.map f ((env.order.run r.db.scores).take n)) hfun.symm, hok,
    env.order.perm _, env.order.sorted _, hlen, ?_, ?_, ?_, ?_⟩
  · intro hle
    rw [hlen]
    exact Nat.min_eq_left hle
  · rw [List.pairwise_map]
    refine ((env.order.sorted r.db.scores).sublist (List.take_sublist _ _)).imp ?_
    intro a b hab
    have ha := scanned_score a
    have hb := scanned_score b
    omega
  · intro x hx y hy
    exact List.Sorted.rel_of_mem_take_of_mem_drop (env.order.sorted r.db.scores) hx hy
  · intro hrows
    rw [List.map_map]
    conv_rhs => rw [← List.map_id ((env.order.run r.db.scores).take n)]
    apply List.map_congr_left
    intro row hrow
    exact toRow_scanned row (hrows row hrow)

/-- C5 (amended) on `GET /scores/1` over a table whose second row has a negative
score: the row returned is the top row itself. -/
theorem GetScores_top_scores_witness :
    GetScores okEnv (reqCount "1") { db := dbNegative, writes := [], panicked := false } =
      { db := dbNegative,
        writes := [Write.json 200 (JSON.arr [Score.toJSON { name := "a", score := 5 }])],
        panicked := false } := by
  obtain ⟨scoresSlice, hslice, hget, -⟩ :=
    GetScores_top_scores okEnv (reqCount "1")
      { db := dbNegative, writes := [], panicked := false } 1
      (by decide) (by decide) (by decide) rfl rfl rfl
  rw [hget, hslice]
  rfl

/-! ## A submitted score that tops the table -/

/-- A list that is a permutation of `old ++ [top]`, sorted by score descending, starts
with `top` when `top` beats every row of `old`. -/
theorem take_one_of_sorted_perm (sorted old : List Row) (top : Row)
    (hperm : List.Perm sorted (old ++ [top]))
    (hsorted : List.Pairwise (fun a b : Row => b.score ≤ a.score) sorted)
    (hmax : ∀ row ∈ old, row.score < top.score) :
    sorted.take 1 = [top] := by
  cases sorted with
  | nil =>
    have := hperm.length_eq
    simp at this
  | cons x xs =>
    have hx : x ∈ old ++ [top] := hperm.mem_iff.1 (List.mem_cons_self _ _)
    have htop : top ∈ x :: xs := hperm.mem_iff.2 (by simp)
    have hxe : x = top := by
      rcases List.mem_append.1 hx with hm | hm
      · rcases List.mem_cons.1 htop with e | ht
        · exact e.symm
        · have h1 := hmax x hm
          have h2 := (List.pairwise_cons.1 hsorted).1 top ht
          omega
      · exact List.mem_singleton.1 hm
    simp [hxe]

/-- C9, as stated, fails when the later `GetScores` meets a store error: alice's score
of 42 is posted with success on a table whose only score is 7. The `GET` with count 1
that follows answers with the 500 error when `statement.Query` returns an error, and
with status 200 and an empty array when `rows.Next()` fails before the first row;
neither is the one-element array. -/
theorem GetScores_after_PostScores_counterexample :
    (PostScores okEnv reqAlice { db := db1, writes := [], panicked := false }).writes =
      [Write.json 201 (JSON.obj [("name", JSON.str "alice"), ("score", JSON.num 42)])] ∧
    (∀ row ∈ db1.scores, row.score < 42) ∧
    Get (reqCount "1").params PARAM_SCORE_COUNT = "1" ∧
    (GetScores envQueryFails (reqCount "1")
      { db := (PostScores okEnv reqAlice { db := db1, writes := [], panicked := false }).db,
        writes := [], panicked := false }).writes =
      [Write.json 500 (JSON.obj [("error", JSON.str "Failed to get scores")])] ∧
    (GetScores envRowsFail (reqCount "1")
      { db := (PostScores okEnv reqAlice { db := db1, writes := [], panicked := false }).db,
        writes := [], panicked := false }).writes =
      [Write.json 200 (JSON.arr [])] :=
  ⟨rfl, by decide, rfl, rfl, rfl⟩

/-- C9, amended: for every table and every `Score` s with non-empty name and non-zero
score, after a successful `PostScores` of s, a following `GetScores` with count 1 that
meets no store error (the statement is prepared and queried and the result is read
without error) responds 200 with the one-element array holding s, whenever s.score is
strictly greater than every score stored before. -/
theorem GetScores_after_PostScores (envPost envGet : Env) (reqPost reqGet : Request)
    (r : Ctx) (s : Score)
    (hbody : reqPost.body = some s) (hname : s.name ≠ "") (hscore : s.score ≠ 0)
    (hpPost : envPost.prepareErr = false) (hePost : envPost.execErr = false)
    (hmax : ∀ row ∈ r.db.scores, row.score < (s.score : Int))
    (hcount : Get reqGet.params PARAM_SCORE_COUNT = "1")
    (hpGet : envGet.prepareErr = false) (heGet : envGet.execErr = false)
    (hrGet : envGet.rowsNextErr = none) :
    (PostScores envPost reqPost r).writes =
      r.writes ++ [Write.json 201 (JSON.obj [("name", JSON.str s.name), ("score", JSON.num s.score)])] ∧
    GetScores envGet reqGet
        { db := (PostScores envPost reqPost r).db, writes := [], panicked := false } =
      { db := (PostScores envPost reqPost r).db,
        writes := [Write.json 200
          (JSON.arr [JSON.obj [("name", JSON.str s.name), ("score", JSON.num s.score)]])],
        panicked := false } := by
  have hpost : PostScores envPost reqPost r =
      { db := { scores := r.db.scores ++ [{ name := s.name, score := (s.score : Int) }],
                api_keys := r.db.api_keys },
        writes := r.writes ++
          [Write.json 201
            (JSON.obj [("name", JSON.str s.name), ("score", JSON.num s.score)])],
        panicked := r.panicked } := by
    rw [PostScores_of_valid envPost reqPost r s hbody hname hscore hpPost hePost]
    rfl
  have hc : GetScores.count (Get reqGet.params PARAM_SCORE_COUNT) = 1 := by
    rw [hcount]; decide
  have hok := GetScores_ok envGet reqGet
    { db := (PostScores envPost reqPost r).db, writes := [], panicked := false } hpGet heGet
    hrGet (by rw [hc]; decide)
  rw [hc] at hok
  have htake : (envGet.order.run (PostScores envPost reqPost r).db.scores).take 1 =
      [{ name := s.name, score := (s.score : Int) }] := by
    apply take_one_of_sorted_perm _ r.db.scores
    · have := envGet.order.perm (PostScores envPost reqPost r).db.scores
      rw [hpost] at this
      rw [hpost]
      exact this
    · exact envGet.order.sorted _
    · exact hmax
  refine ⟨by rw [hpost], ?_⟩
  rw [hok]
  have h1 : (1 : Int).toNat = 1 := rfl
  rw [h1, htake]
  have hsc : scanned { name := s.name, score := (s.score : Int) } = s := by
    rw [scanned_of_nonneg _ (Int.natCast_nonneg _)]
    simp
  simp only [List.map_cons, List.map_nil, hsc]
  rfl

/-- C9 (amended) on alice submitting 42 to a table whose only score is 7. -/
theorem GetScores_after_PostScores_witness :
    (PostScores okEnv reqAlice { db := db1, writes := [], panicked := false }).writes =
      [] ++ [Write.json 201 (JSON.obj [("name", JSON.str "alice"), ("score", JSON.num 42)])] ∧
    GetScores okEnv (reqCount "1")
        { db := (PostScores okEnv reqAlice { db := db1, writes := [], panicked := false }).db,
          writes := [], panicked := false } =
      { db := (PostScores okEnv reqAlice { db := db1, writes := [], panicked := false }).db,
        writes := [Write.json 200
          (JSON.arr [JSON.obj [("name", JSON.str "alice"), ("score", JSON.num 42)]])],
        panicked := false } :=
  GetScores_after_PostScores okEnv okEnv reqAlice (reqCount "1")
    { db := db1, writes := [], panicked := false } { name := "alice", score := 42 }
    rfl (by decide) (by decide) rfl rfl (by decide) rfl rfl rfl rfl

end PooseBoard
